import Mathlib

/-!
Shallow embedding of the map-tiles-downloader core: tile addressing
(`tiling.py`), provider URL builders (`providers.py`), the request planner
(`cli.py`) and the download engine (`downloader.py`), with theorems checking
the design spec's claims against these definitions.

Python floats are modelled as real numbers; Python's `int()` cast is
truncation toward zero (`pyTrunc`).
-/

open Real

noncomputable section TilingDefs

/-- Python's `int()` applied to a float: truncation toward zero. -/
def pyTrunc (x : ℝ) : ℤ := if 0 ≤ x then ⌊x⌋ else ⌈x⌉

/-- `tiling.lon2tilex`: `int((lon + 180.0) / 360.0 * (1 << zoom))`. -/
def lon2tilex (lon : ℝ) (zoom : ℕ) : ℤ :=
  pyTrunc ((lon + 180) / 360 * (2 ^ zoom))

/-- `tiling.lat2tiley`:
`int((1.0 - log(tan(lat*pi/180) + 1.0/cos(lat*pi/180)) / pi) / 2.0 * (1 << zoom))`. -/
def lat2tiley (lat : ℝ) (zoom : ℕ) : ℤ :=
  pyTrunc ((1 - Real.log (Real.tan (lat * π / 180) + 1 / Real.cos (lat * π / 180)) / π)
    / 2 * (2 ^ zoom))

/-- `tiling.normalize_bbox`: `(min(south,north), min(west,east), max(south,north), max(west,east))`. -/
def normalize_bbox (south west north east : ℝ) : ℝ × ℝ × ℝ × ℝ :=
  (min south north, min west east, max south north, max west east)

/-- `tiling.bbox_tile_span`: `(start_x, end_x, start_y, end_y)`. -/
def bbox_tile_span (south west north east : ℝ) (zoom : ℕ) : ℤ × ℤ × ℤ × ℤ :=
  match normalize_bbox south west north east with
  | (min_lat, min_lon, max_lat, max_lon) =>
    (lon2tilex min_lon zoom, lon2tilex max_lon zoom,
     lat2tiley max_lat zoom, lat2tiley min_lat zoom)

end TilingDefs

/-- Python's `range(a, b + 1)` over integers, as a list. -/
def intRangeIncl (a b : ℤ) : List ℤ :=
  (List.range (b + 1 - a).toNat).map (fun i : ℕ => a + (i : ℤ))

/-- Python's `range(a, b + 1)` over naturals, as a list. -/
def natRangeIncl (a b : ℕ) : List ℕ :=
  (List.range (b + 1 - a)).map (fun i => a + i)

noncomputable section TilingIter

/-- `tiling.iter_tiles_for_bbox`: for `x` in `range(start_x, end_x+1)`,
for `y` in `range(start_y, end_y+1)`, yield `(zoom, x, y)`. -/
def iter_tiles_for_bbox (south west north east : ℝ) (zoom : ℕ) : List (ℕ × ℤ × ℤ) :=
  match bbox_tile_span south west north east zoom with
  | (start_x, end_x, start_y, end_y) =>
    (intRangeIncl start_x end_x).flatMap (fun x =>
      (intRangeIncl start_y end_y).map (fun y => (zoom, x, y)))

/-- `tiling.count_tiles_for_bbox`: sums `(end_x-start_x+1)*(end_y-start_y+1)`
over `zoom` in `range(min_zoom, max_zoom+1)`, starting from `total = 0`. -/
def count_tiles_for_bbox (south west north east : ℝ) (min_zoom max_zoom : ℕ) : ℤ :=
  (natRangeIncl min_zoom max_zoom).foldl
    (fun total zoom =>
      match bbox_tile_span south west north east zoom with
      | (start_x, end_x, start_y, end_y) =>
        total + (end_x - start_x + 1) * (end_y - start_y + 1)) 0

/-- `tiling.count_tiles_for_regions`: sums `count_tiles_for_bbox` over the
regions mapping's values (regions modelled as an association list, preserving
the dict's insertion order). -/
def count_tiles_for_regions (regions : List (String × (ℝ × ℝ × ℝ × ℝ)))
    (min_zoom max_zoom : ℕ) : ℤ :=
  regions.foldl
    (fun total r =>
      match r.2 with
      | (south, west, north, east) =>
        total + count_tiles_for_bbox south west north east min_zoom max_zoom) 0

end TilingIter

/-! ## Providers (`providers.py`) -/

/-- Python truthiness of an `Optional[str]`: `None` and `""` are falsy. -/
def pyStrTruthy : Option String → Bool
  | none => false
  | some s => !(s == "")

/-- `providers._thunderforest_url`: `s = style or "neighbourhood"`; raises
`ValueError` when `api_key` is falsy; else formats the URL. -/
def _thunderforest_url (zoom : ℕ) (x y : ℤ) (style api_key : Option String) :
    Except String String :=
  let s := if pyStrTruthy style then style.getD "" else "neighbourhood"
  if !(pyStrTruthy api_key) then
    Except.error "Thunderforest requires an API key"
  else
    Except.ok ("https://tile.thunderforest.com/" ++ s ++ "/" ++ toString zoom ++ "/"
      ++ toString x ++ "/" ++ toString y ++ ".png?apikey=" ++ api_key.getD "")

/-- `providers._osm_url`: ignores `style` and `api_key`. -/
def _osm_url (zoom : ℕ) (x y : ℤ) (style api_key : Option String) :
    Except String String :=
  Except.ok ("https://tile.openstreetmap.org/" ++ toString zoom ++ "/"
    ++ toString x ++ "/" ++ toString y ++ ".png")

/-- `providers.Provider` (frozen dataclass). -/
structure Provider where
  name : String
  display_name : String
  requires_api_key : Bool
  api_key_env : Option String
  styles : Option (List String)
  default_style : Option String
  default_concurrency : ℕ
  headers : List (String × String)
  build_url : ℕ → ℤ → ℤ → Option String → Option String → Except String String

/-- The `"thunderforest"` entry of `providers.PROVIDERS`. -/
def thunderforestProvider : Provider :=
  { name := "thunderforest"
    display_name := "Thunderforest"
    requires_api_key := true
    api_key_env := some "THUNDERFOREST_API_KEY"
    styles := some ["outdoors", "mobile-atlas", "cycle", "transport", "landscape",
      "transport-dark", "spinal-map", "pioneer", "neighbourhood", "atlas"]
    default_style := some "neighbourhood"
    default_concurrency := 20
    headers := []
    build_url := _thunderforest_url }

/-- The `"osm"` entry of `providers.PROVIDERS`. -/
def osmProvider : Provider :=
  { name := "osm"
    display_name := "OpenStreetMap (Standard)"
    requires_api_key := false
    api_key_env := none
    styles := none
    default_style := none
    default_concurrency := 2
    headers := [("User-Agent", "map-tiles-downloader/0.1 (respect OSM tile usage policy)")]
    build_url := _osm_url }

/-- `providers.get_url_builder`: returns the closure
`builder(zoom, x, y) = provider.build_url(zoom, x, y, style, api_key)`;
the construction itself always succeeds. -/
def get_url_builder (provider : Provider) (api_key style : Option String) :
    ℕ → ℤ → ℤ → Except String String :=
  fun zoom x y => provider.build_url zoom x y style api_key

/-! ## Download engine (`downloader.py`), modelled as pure state passing.

The filesystem is an association list from path to written byte length;
the network is a function from attempt index to that attempt's outcome.
`asyncio` is cooperative single-threaded scheduling, so `download` threads
the filesystem through the requests in order. -/

/-- `downloader.TileRequest` dataclass. -/
structure TileRequest where
  zoom : ℕ
  x : ℤ
  y : ℤ
  area_label : Option String := none
deriving DecidableEq

/-- Outcome tag of a progress event: `"success" | "failed" | "skipped"`. -/
inductive Outcome where
  | success
  | failed
  | skipped
deriving DecidableEq

/-- One `on_progress(outcome, req, nbytes)` callback invocation. -/
structure ProgressEvent where
  outcome : Outcome
  req : TileRequest
  nbytes : ℕ
deriving DecidableEq

/-- What one HTTP attempt inside the retry loop observes. -/
inductive AttemptOutcome where
  | status (code : ℕ) (content : ℕ)
  | timeout
  | exc
deriving DecidableEq

/-- Filesystem: existing tile files, path mapped to byte length. -/
abbrev FS := List (String × ℕ)

/-- `Path.exists()` on the model filesystem. -/
def pathExists (fs : FS) (p : String) : Bool :=
  fs.any (fun e => e.1 == p)

/-- Result of `_download_one`: events emitted, returned bool, filesystem after. -/
structure DownloadResult where
  events : List ProgressEvent
  ok : Bool
  fs : FS
deriving DecidableEq

/-- `downloader.TileDownloader._tile_path`: `output_dir / str(zoom) / str(x) / f"{y}.png"`. -/
def _tile_path (output_dir : String) (zoom : ℕ) (x y : ℤ) : String :=
  output_dir ++ "/" ++ toString zoom ++ "/" ++ toString x ++ "/" ++ toString y ++ ".png"

/-- The `for attempt in range(self.retry_attempts)` loop of `_download_one`,
one list element per remaining attempt. Status 200 writes the file and emits
`success`; 429 sleeps and retries; any other status emits `failed`; a timeout
retries; any other exception emits `failed`; an exhausted list falls through
to the loop's trailing `return False` with no event. -/
def attemptLoop (req : TileRequest) (path : String) (cancelled : Bool) (fs : FS) :
    List AttemptOutcome → DownloadResult
  | [] => ⟨[], false, fs⟩
  | a :: rest =>
    if cancelled then ⟨[], false, fs⟩
    else
      match a with
      | .status 200 content => ⟨[⟨.success, req, content⟩], true, fs ++ [(path, content)]⟩
      | .status 429 _ => attemptLoop req path cancelled fs rest
      | .status _ _ => ⟨[⟨.failed, req, 0⟩], false, fs⟩
      | .timeout => attemptLoop req path cancelled fs rest
      | .exc => ⟨[⟨.failed, req, 0⟩], false, fs⟩

/-- `downloader.TileDownloader._download_one` for one request: cancellation
pre-flight check, then the existence check (skip), then the retry loop with
`retry_attempts` attempts answered by `net`. -/
def _download_one (output_dir : String) (retry_attempts : ℕ) (cancelled : Bool)
    (fs : FS) (req : TileRequest) (net : ℕ → AttemptOutcome) : DownloadResult :=
  let tile_path := _tile_path output_dir req.zoom req.x req.y
  if cancelled then ⟨[], false, fs⟩
  else if pathExists fs tile_path then ⟨[⟨.skipped, req, 0⟩], true, fs⟩
  else attemptLoop req tile_path cancelled fs ((List.range retry_attempts).map net)

/-- `downloader.TileDownloader.download`: processes every request, threading
the filesystem; returns the concatenated progress events and the final
filesystem. -/
def download (output_dir : String) (retry_attempts : ℕ) (cancelled : Bool)
    (fs : FS) (requests : List TileRequest)
    (net : TileRequest → ℕ → AttemptOutcome) : List ProgressEvent × FS :=
  match requests with
  | [] => ([], fs)
  | r :: rest =>
    let res := _download_one output_dir retry_attempts cancelled fs r (net r)
    let tail := download output_dir retry_attempts cancelled res.fs rest net
    (res.events ++ tail.1, tail.2)

/-! ## Engine control flags (`pause`/`resume`/`cancel`). -/

/-- The two mutable control flags of `TileDownloader`. -/
structure ControlFlags where
  paused : Bool
  cancelled : Bool
deriving DecidableEq

/-- A control operation on the engine: the three mutators, plus `step` for any
internal engine step (`_download_one` only ever reads the flags). -/
inductive ControlOp where
  | pause
  | resume
  | cancel
  | step
deriving DecidableEq

/-- `pause()` sets `paused := True`; `resume()` sets `paused := False`;
`cancel()` sets `cancelled := True`; internal steps leave both flags alone. -/
def applyOp (s : ControlFlags) : ControlOp → ControlFlags
  | .pause => ⟨true, s.cancelled⟩
  | .resume => ⟨false, s.cancelled⟩
  | .cancel => ⟨s.paused, true⟩
  | .step => s

/-- A sequence of control operations applied in order. -/
def applyOps (s : ControlFlags) (ops : List ControlOp) : ControlFlags :=
  ops.foldl applyOp s

/-! ## Request planning (`cli._requests_for_regions`). -/

noncomputable section Planning

/-- The full enumeration produced by the nested loops of
`cli._requests_for_regions`: `zoom` ascending over
`range(min_zoom, max_zoom+1)` (outer), then region by region in mapping
order, then `iter_tiles_for_bbox` order within a region. -/
def fullEnumeration (regions : List (String × (ℝ × ℝ × ℝ × ℝ)))
    (min_zoom max_zoom : ℕ) : List TileRequest :=
  (natRangeIncl min_zoom max_zoom).flatMap (fun zoom =>
    regions.flatMap (fun r =>
      match r.2 with
      | (south, west, north, east) =>
        (iter_tiles_for_bbox south west north east zoom).map
          (fun t => ⟨t.1, t.2.1, t.2.2, none⟩)))

/-- `cli._requests_for_regions`: appends each enumerated tile to `requests`
while `max_tiles is None or len(requests) < max_tiles`; excess tiles go to the
dead `nofetch` list, which the function discards. -/
def _requests_for_regions (regions : List (String × (ℝ × ℝ × ℝ × ℝ)))
    (min_zoom max_zoom : ℕ) (max_tiles : Option ℕ) : List TileRequest :=
  (fullEnumeration regions min_zoom max_zoom).foldl
    (fun requests t =>
      match max_tiles with
      | none => requests ++ [t]
      | some n => if requests.length < n then requests ++ [t] else requests) []

end Planning

/-! ## Theorems -/

/-- Helper: each single control operation keeps `cancelled` at `true`. -/
theorem applyOp_keeps_cancelled (s : ControlFlags) (op : ControlOp)
    (h : s.cancelled = true) : (applyOp s op).cancelled = true := by
  cases op <;> simpa [applyOp] using h

/-- Helper: `cancelled` stays `true` under any operation sequence. -/
theorem applyOps_keeps_cancelled (ops : List ControlOp) :
    ∀ s : ControlFlags, s.cancelled = true → (applyOps s ops).cancelled = true := by
  induction ops with
  | nil => intro s h; exact h
  | cons op rest ih =>
    intro s h
    exact ih (applyOp s op) (applyOp_keeps_cancelled s op h)

/-- C9: the `cancelled` flag is monotonic — once `true`, no sequence of
`pause`/`resume`/`cancel` operations or internal engine steps resets it —
while `pause`/`resume` write only the `paused` flag, leaving `cancelled`
untouched. -/
theorem claim_C9 (s t : ControlFlags) (ops : List ControlOp)
    (h : s.cancelled = true) :
    (applyOps s ops).cancelled = true ∧
    applyOp t ControlOp.pause = ⟨true, t.cancelled⟩ ∧
    applyOp t ControlOp.resume = ⟨false, t.cancelled⟩ := by
  exact ⟨applyOps_keeps_cancelled ops s h, rfl, rfl⟩

/-- Witness for C9 at a concrete state and operation sequence. -/
theorem claim_C9_witness :
    (ControlFlags.mk false true).cancelled = true ∧
    ((applyOps ⟨false, true⟩
        [ControlOp.pause, ControlOp.step, ControlOp.resume, ControlOp.cancel]).cancelled = true ∧
      applyOp ⟨true, false⟩ ControlOp.pause = ⟨true, (ControlFlags.mk true false).cancelled⟩ ∧
      applyOp ⟨true, false⟩ ControlOp.resume = ⟨false, (ControlFlags.mk true false).cancelled⟩) :=
  ⟨by decide, claim_C9 ⟨false, true⟩ ⟨true, false⟩
    [ControlOp.pause, ControlOp.step, ControlOp.resume, ControlOp.cancel] (by decide)⟩

/-- C8: the OSM URL builder ignores both `style` and `api_key` — any two
argument pairs give the same URL — and the URL is exactly
`https://tile.openstreetmap.org/<zoom>/<x>/<y>.png`; at `(8, 100, 200)` it is
`https://tile.openstreetmap.org/8/100/200.png`. -/
theorem claim_C8 (zoom : ℕ) (x y : ℤ) (s1 k1 s2 k2 : Option String) :
    _osm_url zoom x y s1 k1 = _osm_url zoom x y s2 k2 ∧
    _osm_url zoom x y s1 k1
      = Except.ok ("https://tile.openstreetmap.org/" ++ toString zoom ++ "/"
          ++ toString x ++ "/" ++ toString y ++ ".png") ∧
    _osm_url 8 100 200 s1 k1 = Except.ok "https://tile.openstreetmap.org/8/100/200.png" :=
  ⟨rfl, rfl, rfl⟩

/-- C5: building a Thunderforest URL builder with no API key succeeds (it is a
total closure), but every call of that builder yields the configuration error
instead of a URL; with key `"X"` and style `"neighbourhood"` the builder maps
`(10, 123, 456)` to the exact documented URL. -/
theorem claim_C5 (zoom : ℕ) (x y : ℤ) (style : Option String) :
    get_url_builder thunderforestProvider none style zoom x y
      = Except.error "Thunderforest requires an API key" ∧
    get_url_builder thunderforestProvider (some "X") (some "neighbourhood") 10 123 456
      = Except.ok "https://tile.thunderforest.com/neighbourhood/10/123/456.png?apikey=X" :=
  ⟨rfl, rfl⟩

/-- C1 (failing path): a request whose every attempt yields HTTP 429 — and
likewise one whose every attempt times out — exhausts the retry loop and
produces no progress event at all (`events = []`) and `ok = false`: the
`failed` event the claim requires is never emitted. -/
theorem claim_C1_retry_exhaustion :
    (_download_one "tiles" 3 false [] ⟨1, 1, 1, none⟩
        (fun _ => AttemptOutcome.status 429 0)).events = [] ∧
    (_download_one "tiles" 3 false [] ⟨1, 1, 1, none⟩
        (fun _ => AttemptOutcome.status 429 0)).ok = false ∧
    (_download_one "tiles" 3 false [] ⟨1, 1, 1, none⟩
        (fun _ => AttemptOutcome.timeout)).events = [] := by
  refine ⟨rfl, rfl, rfl⟩

/-- Helper: an existing destination file short-circuits `_download_one` into a
single `skipped` event with byte count 0, leaving the filesystem unchanged. -/
theorem download_one_skip (dir : String) (retry : ℕ) (fs : FS) (req : TileRequest)
    (net : ℕ → AttemptOutcome)
    (h : pathExists fs (_tile_path dir req.zoom req.x req.y) = true) :
    _download_one dir retry false fs req net
      = ⟨[⟨Outcome.skipped, req, 0⟩], true, fs⟩ := by
  simp [_download_one, h]

/-- Helper: with at least one attempt allowed and the first attempt answering
HTTP 200, `_download_one` leaves the request's destination file on disk and
preserves every file that was already there. -/
theorem download_one_writes (dir : String) (retry : ℕ) (fs : FS) (req : TileRequest)
    (net : ℕ → AttemptOutcome) (hr : 0 < retry) (c : ℕ)
    (hnet : net 0 = AttemptOutcome.status 200 c) :
    pathExists (_download_one dir retry false fs req net).fs
        (_tile_path dir req.zoom req.x req.y) = true ∧
    ∀ p, pathExists fs p = true →
      pathExists (_download_one dir retry false fs req net).fs p = true := by
  by_cases hex : pathExists fs (_tile_path dir req.zoom req.x req.y) = true
  · rw [download_one_skip dir retry fs req net hex]
    exact ⟨hex, fun p hp => hp⟩
  · obtain ⟨k, rfl⟩ : ∃ k, retry = k + 1 := ⟨retry - 1, by omega⟩
    have hrange : (List.range (k + 1)).map net
        = AttemptOutcome.status 200 c :: ((List.range k).map Nat.succ).map net := by
      rw [List.range_succ_eq_map, List.map_cons, hnet]
    have hres : _download_one dir (k + 1) false fs req net
        = ⟨[⟨Outcome.success, req, c⟩], true,
            fs ++ [(_tile_path dir req.zoom req.x req.y, c)]⟩ := by
      simp only [_download_one, if_neg hex, hrange]
      simp [attemptLoop]
    rw [hres]
    refine ⟨?_, ?_⟩
    · simp [pathExists]
    · intro p hp
      simp only [pathExists, List.any_append, Bool.or_eq_true]
      exact Or.inl hp

/-- Helper: a run whose network answers HTTP 200 on every first attempt leaves
every processed request's destination file on disk and preserves all existing
files. -/
theorem download_preserves_and_creates (dir : String) (retry : ℕ)
    (reqs : List TileRequest) (sz : TileRequest → ℕ → ℕ) :
    ∀ fs : FS, 0 < retry →
    (∀ p, pathExists fs p = true →
        pathExists (download dir retry false fs reqs
          (fun r i => AttemptOutcome.status 200 (sz r i))).2 p = true) ∧
    (∀ r ∈ reqs, pathExists (download dir retry false fs reqs
          (fun r i => AttemptOutcome.status 200 (sz r i))).2
        (_tile_path dir r.zoom r.x r.y) = true) := by
  induction reqs with
  | nil =>
    intro fs _
    exact ⟨fun p hp => hp, fun r hr => absurd hr (List.not_mem_nil r)⟩
  | cons r rest ih =>
    intro fs hr
    have hone := download_one_writes dir retry fs r
      (fun i => AttemptOutcome.status 200 (sz r i)) hr (sz r 0) rfl
    have htail := ih (_download_one dir retry false fs r
      (fun i => AttemptOutcome.status 200 (sz r i))).fs hr
    refine ⟨fun p hp => htail.1 p (hone.2 p hp), ?_⟩
    intro q hq
    rcases List.mem_cons.mp hq with hq | hq
    · subst hq
      exact htail.1 _ hone.1
    · exact htail.2 q hq

/-- Helper: when every request's destination file already exists, `download`
emits exactly one `skipped` event (bytes 0) per request, in request order, and
returns the filesystem unchanged. -/
theorem download_all_skipped (dir : String) (retry : ℕ) (reqs : List TileRequest)
    (net : TileRequest → ℕ → AttemptOutcome) :
    ∀ fs : FS,
    (∀ r ∈ reqs, pathExists fs (_tile_path dir r.zoom r.x r.y) = true) →
    download dir retry false fs reqs net
      = (reqs.map (fun r => ⟨Outcome.skipped, r, 0⟩), fs) := by
  induction reqs with
  | nil => intro fs _; rfl
  | cons r rest ih =>
    intro fs h
    have hskip := download_one_skip dir retry fs r (net r) (h r (List.mem_cons_self r rest))
    have htail := ih fs (fun q hq => h q (List.mem_cons_of_mem r hq))
    simp [download, hskip, htail]

/-- C6: a request whose destination file `outputDir/zoom/x/y.png` already
exists performs no fetch and yields exactly one `skipped` event with byte
count 0, leaving the filesystem unchanged; consequently, after a first run in
which every fetch succeeds, a second `download()` over the same output
directory with the same requests reports every tile as `skipped` and leaves
the files on disk unchanged. -/
theorem claim_C6 (dir : String) (retry : ℕ) (fs fs0 : FS)
    (reqs : List TileRequest) (req : TileRequest) (net0 : ℕ → AttemptOutcome)
    (sz : TileRequest → ℕ → ℕ) (net2 : TileRequest → ℕ → AttemptOutcome)
    (hretry : 0 < retry)
    (hex : pathExists fs0 (_tile_path dir req.zoom req.x req.y) = true) :
    _download_one dir retry false fs0 req net0
      = ⟨[⟨Outcome.skipped, req, 0⟩], true, fs0⟩ ∧
    download dir retry false
        (download dir retry false fs reqs
          (fun r i => AttemptOutcome.status 200 (sz r i))).2 reqs net2
      = (reqs.map (fun r => ⟨Outcome.skipped, r, 0⟩),
         (download dir retry false fs reqs
           (fun r i => AttemptOutcome.status 200 (sz r i))).2) := by
  refine ⟨download_one_skip dir retry fs0 req net0 hex, ?_⟩
  apply download_all_skipped
  intro r hr
  exact (download_preserves_and_creates dir retry reqs sz fs hretry).2 r hr

/-- Witness for C6 at concrete inputs: one request, a one-attempt budget, and
an output directory that already holds `o/1/2/3.png`. -/
theorem claim_C6_witness :
    0 < 1 ∧
    pathExists [("o/1/2/3.png", 5)] (_tile_path "o" 1 2 3) = true ∧
    (_download_one "o" 1 false [("o/1/2/3.png", 5)] ⟨1, 2, 3, none⟩ (fun _ => AttemptOutcome.exc)
        = ⟨[⟨Outcome.skipped, ⟨1, 2, 3, none⟩, 0⟩], true, [("o/1/2/3.png", 5)]⟩ ∧
      download "o" 1 false
          (download "o" 1 false [] [⟨1, 2, 3, none⟩]
            (fun r i => AttemptOutcome.status 200 ((fun _ _ => 7) r i))).2 [⟨1, 2, 3, none⟩]
          (fun _ _ => AttemptOutcome.exc)
        = ([⟨1, 2, 3, none⟩].map (fun r => ⟨Outcome.skipped, r, 0⟩),
           (download "o" 1 false [] [⟨1, 2, 3, none⟩]
             (fun r i => AttemptOutcome.status 200 ((fun _ _ => 7) r i))).2)) :=
  ⟨by decide, by decide,
    claim_C6 "o" 1 [] [("o/1/2/3.png", 5)] [⟨1, 2, 3, none⟩] ⟨1, 2, 3, none⟩
      (fun _ => AttemptOutcome.exc) (fun _ _ => 7) (fun _ _ => AttemptOutcome.exc)
      (by decide) (by decide)⟩

/-- Helper: folding the capped append over any list from any accumulator
appends exactly the next `n - acc.length` elements. -/
theorem foldl_cap_eq (n : ℕ) (l : List TileRequest) :
    ∀ acc : List TileRequest,
      l.foldl (fun requests t => if requests.length < n then requests ++ [t] else requests) acc
        = acc ++ l.take (n - acc.length) := by
  induction l with
  | nil => intro acc; simp
  | cons t l ih =>
    intro acc
    by_cases h : acc.length < n
    · rw [List.foldl_cons, if_pos h, ih]
      have hlen : n - acc.length = (n - (acc ++ [t]).length) + 1 := by
        simp only [List.length_append, List.length_singleton]
        omega
      rw [hlen, List.take_succ_cons, List.append_assoc]
      rfl
    · rw [List.foldl_cons, if_neg h, ih]
      have hlen : n - acc.length = 0 := by omega
      simp [hlen]

/-- Helper: folding plain append over a list from any accumulator yields the
accumulator followed by the whole list. -/
theorem foldl_append_eq (l : List TileRequest) :
    ∀ acc : List TileRequest,
      l.foldl (fun requests t => requests ++ [t]) acc = acc ++ l := by
  induction l with
  | nil => intro acc; simp
  | cons t l ih =>
    intro acc
    rw [List.foldl_cons, ih, List.append_assoc]
    rfl

/-- C7: with a `max_tiles` cap `n`, `_requests_for_regions` returns exactly
the first `n` requests of the full zoom-ascending, region-by-region,
tile-rectangle enumeration (all excess tiles are dropped from the plan);
with no cap it returns the entire enumeration. -/
theorem claim_C7 (regions : List (String × (ℝ × ℝ × ℝ × ℝ)))
    (min_zoom max_zoom n : ℕ) :
    _requests_for_regions regions min_zoom max_zoom (some n)
      = (fullEnumeration regions min_zoom max_zoom).take n ∧
    _requests_for_regions regions min_zoom max_zoom none
      = fullEnumeration regions min_zoom max_zoom := by
  constructor
  · have h := foldl_cap_eq n (fullEnumeration regions min_zoom max_zoom) []
    simpa using h
  · have h := foldl_append_eq (fullEnumeration regions min_zoom max_zoom) []
    simpa using h

/-! ## Tile-addressing analysis -/

/-- Helper: truncation toward zero is monotone. -/
theorem pyTrunc_mono : Monotone pyTrunc := by
  intro x y hxy
  unfold pyTrunc
  by_cases hx : (0 : ℝ) ≤ x
  · rw [if_pos hx, if_pos (hx.trans hxy)]
    exact Int.floor_mono hxy
  · rw [if_neg hx]
    by_cases hy : (0 : ℝ) ≤ y
    · rw [if_pos hy]
      have h1 : ⌈x⌉ ≤ 0 := Int.ceil_le.mpr (by push_cast; linarith)
      have h2 : 0 ≤ ⌊y⌋ := Int.floor_nonneg.mpr hy
      omega
    · rw [if_neg hy]
      exact Int.ceil_mono hxy

/-- Helper: truncation of a value in `[0, 1)` is `0`. -/
theorem pyTrunc_eq_zero (x : ℝ) (h0 : 0 ≤ x) (h1 : x < 1) : pyTrunc x = 0 := by
  unfold pyTrunc
  rw [if_pos h0]
  exact Int.floor_eq_zero_iff.mpr ⟨h0, h1⟩

/-- Helper: `lon2tilex` is monotone in the longitude. -/
theorem lon2tilex_mono (zoom : ℕ) (a b : ℝ) (h : a ≤ b) :
    lon2tilex a zoom ≤ lon2tilex b zoom := by
  unfold lon2tilex
  apply pyTrunc_mono
  have hp : (0 : ℝ) ≤ (2 : ℝ) ^ zoom := by positivity
  gcongr

/-- Helper: latitudes strictly inside `(-90, 90)` map to radians strictly
inside `(-π/2, π/2)`. -/
theorem rad_mem_Ioo (lat : ℝ) (h1 : -90 < lat) (h2 : lat < 90) :
    lat * π / 180 ∈ Set.Ioo (-(π / 2)) (π / 2) := by
  have hp : (0 : ℝ) < π / 180 := by positivity
  constructor
  · calc -(π / 2) = -90 * (π / 180) := by ring
    _ < lat * (π / 180) := mul_lt_mul_of_pos_right h1 hp
    _ = lat * π / 180 := by ring
  · calc lat * π / 180 = lat * (π / 180) := by ring
    _ < 90 * (π / 180) := mul_lt_mul_of_pos_right h2 hp
    _ = π / 2 := by ring

/-- Helper: for `0 < cos x`, the Mercator logarithm is `arsinh (tan x)`. -/
theorem log_tan_add_inv_cos (x : ℝ) (hx : 0 < Real.cos x) :
    Real.log (Real.tan x + 1 / Real.cos x) = Real.arsinh (Real.tan x) := by
  have h : Real.sqrt (1 + Real.tan x ^ 2) = (Real.cos x)⁻¹ := by
    rw [← Real.inv_sqrt_one_add_tan_sq hx, inv_inv]
  unfold Real.arsinh
  rw [h, one_div]

/-- Helper: `lat2tiley` is antitone on latitudes strictly inside `(-90, 90)`:
a larger (more northern) latitude gives a tile row index at most that of a
smaller one. -/
theorem lat2tiley_antitone (zoom : ℕ) (a b : ℝ) (ha1 : -90 < a) (hb2 : b < 90)
    (hab : a ≤ b) : lat2tiley b zoom ≤ lat2tiley a zoom := by
  have hmem_a : a * π / 180 ∈ Set.Ioo (-(π / 2)) (π / 2) :=
    rad_mem_Ioo a ha1 (lt_of_le_of_lt hab hb2)
  have hmem_b : b * π / 180 ∈ Set.Ioo (-(π / 2)) (π / 2) :=
    rad_mem_Ioo b (lt_of_lt_of_le ha1 hab) hb2
  have hca : 0 < Real.cos (a * π / 180) := Real.cos_pos_of_mem_Ioo hmem_a
  have hcb : 0 < Real.cos (b * π / 180) := Real.cos_pos_of_mem_Ioo hmem_b
  have hrad : a * π / 180 ≤ b * π / 180 := by
    have h0 : 0 ≤ (b - a) * π := mul_nonneg (by linarith) Real.pi_pos.le
    linarith
  have htan : Real.tan (a * π / 180) ≤ Real.tan (b * π / 180) :=
    Real.strictMonoOn_tan.monotoneOn hmem_a hmem_b hrad
  have hL : Real.log (Real.tan (a * π / 180) + 1 / Real.cos (a * π / 180))
      ≤ Real.log (Real.tan (b * π / 180) + 1 / Real.cos (b * π / 180)) := by
    rw [log_tan_add_inv_cos _ hca, log_tan_add_inv_cos _ hcb]
    exact Real.arsinh_le_arsinh.mpr htan
  unfold lat2tiley
  apply pyTrunc_mono
  have hdiv : Real.log (Real.tan (a * π / 180) + 1 / Real.cos (a * π / 180)) / π
      ≤ Real.log (Real.tan (b * π / 180) + 1 / Real.cos (b * π / 180)) / π :=
    div_le_div_of_nonneg_right hL Real.pi_pos.le
  have hpow : (0 : ℝ) ≤ (2 : ℝ) ^ zoom := by positivity
  have hbase : (1 - Real.log (Real.tan (b * π / 180) + 1 / Real.cos (b * π / 180)) / π) / 2
      ≤ (1 - Real.log (Real.tan (a * π / 180) + 1 / Real.cos (a * π / 180)) / π) / 2 := by
    linarith
  exact mul_le_mul_of_nonneg_right hbase hpow

/-- Helper: for latitudes strictly inside `(-90, 90)` the span produced by
`bbox_tile_span` is well ordered in both axes, whatever the argument order. -/
theorem bbox_span_ordered (south west north east : ℝ) (zoom : ℕ)
    (hs1 : -90 < south) (hs2 : south < 90) (hn1 : -90 < north) (hn2 : north < 90) :
    (bbox_tile_span south west north east zoom).1
      ≤ (bbox_tile_span south west north east zoom).2.1 ∧
    (bbox_tile_span south west north east zoom).2.2.1
      ≤ (bbox_tile_span south west north east zoom).2.2.2 := by
  unfold bbox_tile_span normalize_bbox
  refine ⟨lon2tilex_mono zoom _ _ min_le_max, ?_⟩
  exact lat2tiley_antitone zoom (min south north) (max south north)
    (lt_min hs1 hn1) (max_lt hs2 hn2) min_le_max

/-- C4: for every bounding box whose latitudes lie strictly inside
`(-90, 90)` — in either argument order, since `normalize_bbox` reorders
south/north and west/east first — and every zoom, the span returned by
`bbox_tile_span` satisfies `start_x ≤ end_x` and `start_y ≤ end_y`. -/
theorem claim_C4 (south west north east : ℝ) (zoom : ℕ)
    (hs1 : -90 < south) (hs2 : south < 90) (hn1 : -90 < north) (hn2 : north < 90) :
    (bbox_tile_span south west north east zoom).1
      ≤ (bbox_tile_span south west north east zoom).2.1 ∧
    (bbox_tile_span south west north east zoom).2.2.1
      ≤ (bbox_tile_span south west north east zoom).2.2.2 :=
  bbox_span_ordered south west north east zoom hs1 hs2 hn1 hn2

/-- Witness for C4 at the bounding box `(30, 5, -10, -20)` (deliberately
unnormalized) and zoom 3. -/
theorem claim_C4_witness :
    ((-90 : ℝ) < 30 ∧ (30 : ℝ) < 90 ∧ (-90 : ℝ) < -10 ∧ (-10 : ℝ) < 90) ∧
    ((bbox_tile_span 30 5 (-10) (-20) 3).1 ≤ (bbox_tile_span 30 5 (-10) (-20) 3).2.1 ∧
      (bbox_tile_span 30 5 (-10) (-20) 3).2.2.1 ≤ (bbox_tile_span 30 5 (-10) (-20) 3).2.2.2) :=
  ⟨by norm_num,
    claim_C4 30 5 (-10) (-20) 3 (by norm_num) (by norm_num) (by norm_num) (by norm_num)⟩

/-- Helper: `lon2tilex(0, 1) = 1`. -/
theorem lon2tilex_zero_one : lon2tilex 0 1 = 1 := by
  unfold lon2tilex pyTrunc
  norm_num

/-- Helper: `lon2tilex(10, 1) = 1` (the value `19/18` truncates to 1). -/
theorem lon2tilex_ten_one : lon2tilex 10 1 = 1 := by
  unfold lon2tilex pyTrunc
  norm_num

/-- Helper: `lat2tiley(0, 1) = 1` (equator behaviour). -/
theorem lat2tiley_zero_one : lat2tiley 0 1 = 1 := by
  unfold lat2tiley pyTrunc
  norm_num

/-- Helper: `lat2tiley(10, 1) = 0`: the Mercator value at latitude 10° and
zoom 1 lies in `(0, 1)` and truncates to 0. -/
theorem lat2tiley_ten_one : lat2tiley 10 1 = 0 := by
  have hpi := Real.pi_pos
  have hθ : (10 : ℝ) * π / 180 = π / 18 := by ring
  have hmem : π / 18 ∈ Set.Ioo (-(π / 2)) (π / 2) :=
    Set.mem_Ioo.mpr ⟨by linarith, by linarith⟩
  have hc : 0 < Real.cos (π / 18) := Real.cos_pos_of_mem_Ioo hmem
  have htanpos : 0 < Real.tan (π / 18) :=
    Real.tan_pos_of_pos_of_lt_pi_div_two (by linarith) (by linarith)
  have hinv1 : 1 ≤ 1 / Real.cos (π / 18) := by
    rw [le_div_iff hc]
    simpa using Real.cos_le_one (π / 18)
  have ht1 : 1 < Real.tan (π / 18) + 1 / Real.cos (π / 18) := by linarith
  have hLpos : 0 < Real.log (Real.tan (π / 18) + 1 / Real.cos (π / 18)) :=
    Real.log_pos ht1
  have htan1 : Real.tan (π / 18) < 1 := by
    have h4 : Real.tan (π / 18) < Real.tan (π / 4) :=
      Real.tan_lt_tan_of_nonneg_of_lt_pi_div_two (by linarith) (by linarith) (by linarith)
    rwa [Real.tan_pi_div_four] at h4
  have hcos_lb : (7 : ℝ) / 10 < Real.cos (π / 18) := by
    have h1 : Real.cos (π / 4) < Real.cos (π / 18) :=
      Real.cos_lt_cos_of_nonneg_of_le_pi (by linarith) (by linarith) (by linarith)
    have hs : (7 : ℝ) / 5 < Real.sqrt 2 := by
      rw [Real.lt_sqrt (by norm_num)]
      norm_num
    have h2 : (7 : ℝ) / 10 < Real.cos (π / 4) := by
      rw [Real.cos_pi_div_four]
      linarith
    linarith
  have hinv_ub : 1 / Real.cos (π / 18) < 10 / 7 := by
    rw [div_lt_div_iff hc (by norm_num)]
    linarith
  have ht_ub : Real.tan (π / 18) + 1 / Real.cos (π / 18) < Real.exp π := by
    have hexp : π + 1 ≤ Real.exp π := Real.add_one_le_exp π
    have hpi3 : (3 : ℝ) < π := Real.pi_gt_three
    linarith
  have hLub : Real.log (Real.tan (π / 18) + 1 / Real.cos (π / 18)) < π := by
    have h := Real.log_lt_log (by linarith) ht_ub
    rwa [Real.log_exp] at h
  unfold lat2tiley
  rw [hθ]
  have hval : (1 - Real.log (Real.tan (π / 18) + 1 / Real.cos (π / 18)) / π) / 2
      * ((2 : ℝ) ^ (1 : ℕ))
      = 1 - Real.log (Real.tan (π / 18) + 1 / Real.cos (π / 18)) / π := by
    ring
  rw [hval]
  apply pyTrunc_eq_zero
  · have h1 : Real.log (Real.tan (π / 18) + 1 / Real.cos (π / 18)) / π ≤ 1 := by
      rw [div_le_one hpi]
      linarith
    linarith
  · have h2 : 0 < Real.log (Real.tan (π / 18) + 1 / Real.cos (π / 18)) / π :=
      div_pos hLpos hpi
    linarith

/-- Helper: the tile span of bounding box `(0, 0, 10, 10)` at zoom 1 is
`start_x = 1, end_x = 1, start_y = 0, end_y = 1`. -/
theorem span_zero_ten_one : bbox_tile_span 0 0 10 10 1 = (1, 1, 0, 1) := by
  unfold bbox_tile_span normalize_bbox
  norm_num [lon2tilex_zero_one, lon2tilex_ten_one, lat2tiley_zero_one, lat2tiley_ten_one]

/-- Helper: bounding box `(0, 0, 10, 10)` over zoom range `[1, 1]` counts 2
tiles. -/
theorem count_zero_ten_one : count_tiles_for_bbox 0 0 10 10 1 1 = 2 := by
  unfold count_tiles_for_bbox
  rw [show natRangeIncl 1 1 = [1] from rfl]
  rw [List.foldl_cons, List.foldl_nil, span_zero_ten_one]
  decide

/-- Helper: the tiles enumerated for bounding box `(0, 0, 10, 10)` at zoom 1
are exactly `(1,1,0)` and `(1,1,1)`. -/
theorem iter_zero_ten_one : iter_tiles_for_bbox 0 0 10 10 1 = [(1, 1, 0), (1, 1, 1)] := by
  unfold iter_tiles_for_bbox
  rw [span_zero_ten_one]
  decide

/-- C2 counterexample: at bounding box `(0, 0, 10, 10)` and zoom 1 the span is
not the single tile `(1,1,1)` and the count is not 1. -/
theorem claim_C2_counterexample :
    ¬ (bbox_tile_span 0 0 10 10 1 = (1, 1, 1, 1) ∧
       count_tiles_for_bbox 0 0 10 10 1 1 = 1) := by
  rw [span_zero_ten_one, count_zero_ten_one]
  decide

/-- C2 (amended): for bounding box `(south=0, west=0, north=10, east=10)` at
zoom 1, `bbox_tile_span` yields `(start_x, end_x, start_y, end_y) = (1, 1, 0, 1)`,
covering the two tiles `(1,1,0)` and `(1,1,1)`, and `count_tiles_for_bbox`
over zoom range `[1, 1]` returns 2. -/
theorem claim_C2 :
    bbox_tile_span 0 0 10 10 1 = (1, 1, 0, 1) ∧
    iter_tiles_for_bbox 0 0 10 10 1 = [(1, 1, 0), (1, 1, 1)] ∧
    count_tiles_for_bbox 0 0 10 10 1 1 = 2 :=
  ⟨span_zero_ten_one, iter_zero_ten_one, count_zero_ten_one⟩

/-- Helper: the inclusive zoom range `[z, z]` is the single zoom `z`. -/
theorem natRangeIncl_self (z : ℕ) : natRangeIncl z z = [z] := by
  unfold natRangeIncl
  rw [show z + 1 - z = 1 by omega]
  rfl

/-- Helper: length of an inclusive integer range. -/
theorem length_intRangeIncl (a b : ℤ) :
    (intRangeIncl a b).length = (b + 1 - a).toNat := by
  unfold intRangeIncl
  rw [List.length_map, List.length_range]

/-- Helper: a rectangle enumerated as a flat map of rows has size
rows × columns. -/
theorem length_flatMap_map {α β γ : Type} (l : List α) (l2 : List β) (g : α → β → γ) :
    (l.flatMap (fun x => l2.map (g x))).length = l.length * l2.length := by
  induction l with
  | nil => simp
  | cons a l ih =>
    rw [List.flatMap_cons, List.length_append, List.length_map, ih, List.length_cons]
    ring

/-- C3: for latitudes strictly inside `(-90, 90)` and any zoom `z`,
`count_tiles_for_bbox` over `[z, z]` equals
`(end_x - start_x + 1) * (end_y - start_y + 1)` computed from
`bbox_tile_span`, and also equals the number of tiles yielded by
`iter_tiles_for_bbox` — the counting and enumeration paths agree. -/
theorem claim_C3 (south west north east : ℝ) (z : ℕ)
    (hs1 : -90 < south) (hs2 : south < 90) (hn1 : -90 < north) (hn2 : north < 90) :
    count_tiles_for_bbox south west north east z z
      = ((bbox_tile_span south west north east z).2.1
          - (bbox_tile_span south west north east z).1 + 1)
        * ((bbox_tile_span south west north east z).2.2.2
          - (bbox_tile_span south west north east z).2.2.1 + 1) ∧
    ((iter_tiles_for_bbox south west north east z).length : ℤ)
      = count_tiles_for_bbox south west north east z z := by
  have hord := bbox_span_ordered south west north east z hs1 hs2 hn1 hn2
  unfold count_tiles_for_bbox iter_tiles_for_bbox
  rw [natRangeIncl_self, List.foldl_cons, List.foldl_nil]
  rcases hspan : bbox_tile_span south west north east z with ⟨sx, ex, sy, ey⟩
  rw [hspan] at hord
  have hx : sx ≤ ex := hord.1
  have hy : sy ≤ ey := hord.2
  constructor
  · simp
  · rw [length_flatMap_map, length_intRangeIncl, length_intRangeIncl]
    have h1 : ((ex + 1 - sx).toNat : ℤ) = ex + 1 - sx := Int.toNat_of_nonneg (by omega)
    have h2 : ((ey + 1 - sy).toNat : ℤ) = ey + 1 - sy := Int.toNat_of_nonneg (by omega)
    push_cast [h1, h2]
    ring

/-- Witness for C3 at the bounding box `(0, 0, 10, 10)` and zoom 1. -/
theorem claim_C3_witness :
    ((-90 : ℝ) < 0 ∧ (0 : ℝ) < 90 ∧ (-90 : ℝ) < 10 ∧ (10 : ℝ) < 90) ∧
    (count_tiles_for_bbox 0 0 10 10 1 1
        = ((bbox_tile_span 0 0 10 10 1).2.1 - (bbox_tile_span 0 0 10 10 1).1 + 1)
          * ((bbox_tile_span 0 0 10 10 1).2.2.2 - (bbox_tile_span 0 0 10 10 1).2.2.1 + 1) ∧
      ((iter_tiles_for_bbox 0 0 10 10 1).length : ℤ) = count_tiles_for_bbox 0 0 10 10 1 1) :=
  ⟨by norm_num,
    claim_C3 0 0 10 10 1 (by norm_num) (by norm_num) (by norm_num) (by norm_num)⟩

/-- Helper: with no cap, the planner returns the full enumeration. -/
theorem requests_none_eq_full (regions : List (String × (ℝ × ℝ × ℝ × ℝ)))
    (min_zoom max_zoom : ℕ) :
    _requests_for_regions regions min_zoom max_zoom none
      = fullEnumeration regions min_zoom max_zoom := by
  have h0 := foldl_append_eq (fullEnumeration regions min_zoom max_zoom) []
  simpa using h0

/-- Helper: folding an addition over a list from any start value sums the
mapped values. -/
theorem foldl_add_map_sum {α : Type} (f : α → ℤ) (l : List α) :
    ∀ a0 : ℤ, l.foldl (fun t x => t + f x) a0 = a0 + (l.map f).sum := by
  induction l with
  | nil => intro a0; simp
  | cons x l ih =>
    intro a0
    rw [List.foldl_cons, ih, List.map_cons, List.sum_cons]
    ring

/-- Helper: a constant-zero map sums to zero. -/
theorem sum_map_zero {α : Type} (l : List α) : (l.map (fun _ => (0 : ℤ))).sum = 0 := by
  induction l with
  | nil => rfl
  | cons a l ih => simp [ih]

/-- Helper: sums distribute over pointwise addition. -/
theorem sum_map_add {α : Type} (l : List α) (f g : α → ℤ) :
    (l.map (fun x => f x + g x)).sum = (l.map f).sum + (l.map g).sum := by
  induction l with
  | nil => rfl
  | cons a l ih =>
    simp only [List.map_cons, List.sum_cons, ih]
    ring

/-- Helper: a double sum over two lists can be exchanged. -/
theorem sum_comm_list {α β : Type} (l2 : List β) (f : α → β → ℤ) :
    ∀ l1 : List α,
    (l1.map (fun a => (l2.map (f a)).sum)).sum
      = (l2.map (fun b => (l1.map (fun a => f a b)).sum)).sum := by
  intro l1
  induction l1 with
  | nil => simp [sum_map_zero]
  | cons a l1 ih =>
    simp only [List.map_cons, List.sum_cons, ih, ← sum_map_add]

/-- Helper: `count_tiles_for_bbox` as a sum over the zoom range. -/
theorem count_tiles_for_bbox_eq_sum (south west north east : ℝ) (mz Mz : ℕ) :
    count_tiles_for_bbox south west north east mz Mz
      = ((natRangeIncl mz Mz).map (fun zoom =>
          ((bbox_tile_span south west north east zoom).2.1
            - (bbox_tile_span south west north east zoom).1 + 1)
          * ((bbox_tile_span south west north east zoom).2.2.2
            - (bbox_tile_span south west north east zoom).2.2.1 + 1))).sum := by
  unfold count_tiles_for_bbox
  exact (foldl_add_map_sum _ (natRangeIncl mz Mz) 0).trans (zero_add _)

/-- Helper: `count_tiles_for_regions` as a sum over the regions. -/
theorem count_tiles_for_regions_eq_sum (regions : List (String × (ℝ × ℝ × ℝ × ℝ)))
    (mz Mz : ℕ) :
    count_tiles_for_regions regions mz Mz
      = (regions.map (fun r =>
          count_tiles_for_bbox r.2.1 r.2.2.1 r.2.2.2.1 r.2.2.2.2 mz Mz)).sum := by
  unfold count_tiles_for_regions
  exact (foldl_add_map_sum _ regions 0).trans (zero_add _)

/-- Helper: for valid latitudes, the enumeration of one bounding box at one
zoom has exactly the span-rectangle size. -/
theorem iter_length_eq_span (south west north east : ℝ) (z : ℕ)
    (hs1 : -90 < south) (hs2 : south < 90) (hn1 : -90 < north) (hn2 : north < 90) :
    ((iter_tiles_for_bbox south west north east z).length : ℤ)
      = ((bbox_tile_span south west north east z).2.1
          - (bbox_tile_span south west north east z).1 + 1)
        * ((bbox_tile_span south west north east z).2.2.2
          - (bbox_tile_span south west north east z).2.2.1 + 1) := by
  have hord := bbox_span_ordered south west north east z hs1 hs2 hn1 hn2
  unfold iter_tiles_for_bbox
  rcases hspan : bbox_tile_span south west north east z with ⟨sx, ex, sy, ey⟩
  rw [hspan] at hord
  have hx : sx ≤ ex := hord.1
  have hy : sy ≤ ey := hord.2
  rw [length_flatMap_map, length_intRangeIncl, length_intRangeIncl]
  have h1 : ((ex + 1 - sx).toNat : ℤ) = ex + 1 - sx := Int.toNat_of_nonneg (by omega)
  have h2 : ((ey + 1 - sy).toNat : ℤ) = ey + 1 - sy := Int.toNat_of_nonneg (by omega)
  push_cast [h1, h2]
  ring

/-- Helper: flattening all regions at one zoom level yields as many requests
as the sum of the regions' own rectangle sizes at that zoom. -/
theorem regions_flat_length (zoom : ℕ) :
    ∀ regions : List (String × (ℝ × ℝ × ℝ × ℝ)),
    (∀ r ∈ regions, -90 < r.2.1 ∧ r.2.1 < 90 ∧ -90 < r.2.2.2.1 ∧ r.2.2.2.1 < 90) →
    (((regions.flatMap (fun r =>
        match r.2 with
        | (south, west, north, east) =>
          (iter_tiles_for_bbox south west north east zoom).map
            (fun t => (⟨t.1, t.2.1, t.2.2, none⟩ : TileRequest)))).length : ℤ)
      = (regions.map (fun r =>
          ((bbox_tile_span r.2.1 r.2.2.1 r.2.2.2.1 r.2.2.2.2 zoom).2.1
            - (bbox_tile_span r.2.1 r.2.2.1 r.2.2.2.1 r.2.2.2.2 zoom).1 + 1)
          * ((bbox_tile_span r.2.1 r.2.2.1 r.2.2.2.1 r.2.2.2.2 zoom).2.2.2
            - (bbox_tile_span r.2.1 r.2.2.1 r.2.2.2.1 r.2.2.2.2 zoom).2.2.1 + 1))).sum) := by
  intro regions
  induction regions with
  | nil => intro _; simp
  | cons r rest ih =>
    intro h
    obtain ⟨nm, s, w, n, e⟩ := r
    have hr := h _ (List.mem_cons_self _ _)
    rw [List.flatMap_cons, List.length_append, List.map_cons, List.sum_cons]
    push_cast
    rw [List.length_map, iter_length_eq_span s w n e zoom hr.1 hr.2.1 hr.2.2.1 hr.2.2.2]
    rw [ih (fun q hq => h q (List.mem_cons_of_mem _ hq))]

/-- Helper: the full enumeration's length equals the double sum of rectangle
sizes, zoom level by zoom level. -/
theorem fullEnumeration_length (regions : List (String × (ℝ × ℝ × ℝ × ℝ)))
    (mz Mz : ℕ)
    (h : ∀ r ∈ regions, -90 < r.2.1 ∧ r.2.1 < 90 ∧ -90 < r.2.2.2.1 ∧ r.2.2.2.1 < 90) :
    ((fullEnumeration regions mz Mz).length : ℤ)
      = ((natRangeIncl mz Mz).map (fun zoom =>
          (regions.map (fun r =>
            ((bbox_tile_span r.2.1 r.2.2.1 r.2.2.2.1 r.2.2.2.2 zoom).2.1
              - (bbox_tile_span r.2.1 r.2.2.1 r.2.2.2.1 r.2.2.2.2 zoom).1 + 1)
            * ((bbox_tile_span r.2.1 r.2.2.1 r.2.2.2.1 r.2.2.2.2 zoom).2.2.2
              - (bbox_tile_span r.2.1 r.2.2.1 r.2.2.2.1 r.2.2.2.2 zoom).2.2.1 + 1))).sum)).sum := by
  unfold fullEnumeration
  generalize natRangeIncl mz Mz = zs
  induction zs with
  | nil => simp
  | cons z zs ih =>
    rw [List.flatMap_cons, List.length_append, List.map_cons, List.sum_cons]
    push_cast
    rw [regions_flat_length z regions h, ih]

/-- Helper: two identical regions at zoom 1 produce the same two tiles twice
over. -/
theorem requests_two_regions :
    _requests_for_regions
        [("a", ((0 : ℝ), 0, 10, 10)), ("b", ((0 : ℝ), 0, 10, 10))] 1 1 none
      = [⟨1, 1, 0, none⟩, ⟨1, 1, 1, none⟩, ⟨1, 1, 0, none⟩, ⟨1, 1, 1, none⟩] := by
  rw [requests_none_eq_full]
  unfold fullEnumeration
  rw [natRangeIncl_self]
  simp only [List.flatMap_cons, List.flatMap_nil, List.append_nil]
  rw [iter_zero_ten_one]
  rfl

set_option maxHeartbeats 2000000 in
/-- C10: tile requests are never deduplicated — the uncapped planner's output
length equals the sum over zooms and regions of each region's own rectangle
size (so overlap is double-counted), and two identical regions covering
bounding box `(0, 0, 10, 10)` at zoom 1 produce the coordinate `(1, 1, 1)`
twice in the returned list. -/
theorem claim_C10 (regions : List (String × (ℝ × ℝ × ℝ × ℝ))) (mz Mz : ℕ)
    (h : ∀ r ∈ regions, -90 < r.2.1 ∧ r.2.1 < 90 ∧ -90 < r.2.2.2.1 ∧ r.2.2.2.1 < 90) :
    ((_requests_for_regions regions mz Mz none).length : ℤ)
      = count_tiles_for_regions regions mz Mz ∧
    _requests_for_regions
        [("a", ((0 : ℝ), 0, 10, 10)), ("b", ((0 : ℝ), 0, 10, 10))] 1 1 none
      = [⟨1, 1, 0, none⟩, ⟨1, 1, 1, none⟩, ⟨1, 1, 0, none⟩, ⟨1, 1, 1, none⟩] ∧
    2 ≤ (_requests_for_regions
        [("a", ((0 : ℝ), 0, 10, 10)), ("b", ((0 : ℝ), 0, 10, 10))] 1 1 none).count
          ⟨1, 1, 1, none⟩ := by
  refine ⟨?_, requests_two_regions, ?_⟩
  · rw [requests_none_eq_full, fullEnumeration_length regions mz Mz h,
      count_tiles_for_regions_eq_sum]
    simp only [count_tiles_for_bbox_eq_sum]
    have hc := sum_comm_list (natRangeIncl mz Mz)
      (fun (r : String × ℝ × ℝ × ℝ × ℝ) (zoom : ℕ) =>
        ((bbox_tile_span r.2.1 r.2.2.1 r.2.2.2.1 r.2.2.2.2 zoom).2.1
          - (bbox_tile_span r.2.1 r.2.2.1 r.2.2.2.1 r.2.2.2.2 zoom).1 + 1)
        * ((bbox_tile_span r.2.1 r.2.2.1 r.2.2.2.1 r.2.2.2.2 zoom).2.2.2
          - (bbox_tile_span r.2.1 r.2.2.1 r.2.2.2.1 r.2.2.2.2 zoom).2.2.1 + 1))
      regions
    simp only [] at hc
    exact hc.symm
  · rw [requests_two_regions]
    decide

/-- Witness for C10 with the single region `("a", (0, 0, 10, 10))` over zoom
range `[1, 1]`. -/
theorem claim_C10_witness :
    (∀ r ∈ [("a", ((0 : ℝ), 0, 10, 10))],
        -90 < r.2.1 ∧ r.2.1 < 90 ∧ -90 < r.2.2.2.1 ∧ r.2.2.2.1 < 90) ∧
    (((_requests_for_regions [("a", ((0 : ℝ), 0, 10, 10))] 1 1 none).length : ℤ)
        = count_tiles_for_regions [("a", ((0 : ℝ), 0, 10, 10))] 1 1 ∧
      _requests_for_regions
          [("a", ((0 : ℝ), 0, 10, 10)), ("b", ((0 : ℝ), 0, 10, 10))] 1 1 none
        = [⟨1, 1, 0, none⟩, ⟨1, 1, 1, none⟩, ⟨1, 1, 0, none⟩, ⟨1, 1, 1, none⟩] ∧
      2 ≤ (_requests_for_regions
          [("a", ((0 : ℝ), 0, 10, 10)), ("b", ((0 : ℝ), 0, 10, 10))] 1 1 none).count
            ⟨1, 1, 1, none⟩) :=
  ⟨by rintro r hr
      simp only [List.mem_singleton] at hr
      subst hr
      norm_num,
    claim_C10 [("a", ((0 : ℝ), 0, 10, 10))] 1 1
      (by rintro r hr
          simp only [List.mem_singleton] at hr
          subst hr
          norm_num)⟩
